import Mathlib

/-!
Shallow embedding of `news_push_bilingual_v2.py`, a batch RSS digest
pipeline: fetch with retry and two parse strategies, dedup, translation
chain (OpenAI -> DeepL -> MyMemory), Markdown rendering and delivery.
External effects (network replies, parsed feed structures, environment
variables) are modelled by an explicit `Env` oracle; observable calls to
providers and fetch strategies are recorded in traces.
-/

namespace NewsPush

/-- NewsItem tuple as produced by the fetchers: (title, link, published, sourceHost). -/
abbrev NewsItem := String × String × String × String

/-- A feedparser entry, holding the values of `e.get("title","")`,
`e.get("link","")`, `e.get("published","")`, `e.get("updated","")`. -/
structure Entry where
  title : String
  link : String
  published : String
  updated : String
deriving DecidableEq

/-- An `item` element found by BeautifulSoup: each field is the tag text
when the tag is present. -/
structure BsItem where
  title : Option String
  link : Option String
  pubDate : Option String
deriving DecidableEq

/-- An `entry` element found by BeautifulSoup (Atom schema): title text,
`href` attribute of the link tag, `updated` text. -/
structure BsEntry where
  title : Option String
  href : Option String
  updated : Option String
deriving DecidableEq

/-- Translation providers of the chain, for call traces. -/
inductive Provider where
  | openai
  | deepl
  | mymemory
deriving DecidableEq

/-- A fetch-strategy invocation: which strategy, on which attempt index. -/
inductive FetchCall where
  | feedparser (i : Nat)
  | bs4 (i : Nat)
deriving DecidableEq

/-- Errors of the notifier: missing SERVERCHAN_SENDKEY, or an HTTP error
status raised by `raise_for_status`. -/
inductive SendError where
  | configError
  | deliveryError (status : Nat)
deriving DecidableEq

/-- Oracle for everything outside the program: environment variables,
network replies and externally parsed structures. A `none` reply stands
for an exception (network, parse) or a malformed response. Fetch oracles
are indexed by the attempt number, since a retry may see a different
network answer. -/
structure Env where
  openai_key : Option String
  openai_reply : List String → Option (List String)
  deepl_key : Option String
  deepl_reply : String → Option String
  mymemory_reply : String → Option String
  feed_entries : String → Nat → Option (List Entry)
  soup : String → Nat → Option (List BsItem × List BsEntry)
  netloc : String → Option String
  sendkey : Option String
  post : String → List (String × String) → Nat × String

/-- Python's whitespace test for `str.strip()`: ASCII whitespace,
separator controls, and the Unicode space characters. -/
def pyIsSpace (c : Char) : Bool :=
  let n := c.toNat
  decide ((9 ≤ n ∧ n ≤ 13) ∨ (0x1c ≤ n ∧ n ≤ 0x1f) ∨ n = 32 ∨ n = 0x85 ∨
    n = 0xa0 ∨ n = 0x1680 ∨ (0x2000 ≤ n ∧ n ≤ 0x200a) ∨ n = 0x2028 ∨
    n = 0x2029 ∨ n = 0x202f ∨ n = 0x205f ∨ n = 0x3000)

/-- Python `str.strip()`: remove leading and trailing whitespace. -/
def strip (s : String) : String :=
  String.mk (((s.data.dropWhile pyIsSpace).reverse.dropWhile pyIsSpace).reverse)

/-- `get_text(obj)`: `(obj or "").strip()`; a missing value becomes `""`. -/
def get_text (obj : Option String) : String := strip (obj.getD "")

/-- Python truthiness of an optional string: `None` and `""` are falsy. -/
def pyTruthyStr (o : Option String) : Bool :=
  match o with
  | none => false
  | some s => decide (s ≠ "")

/-- `host_of(link)`: `urlparse(link).netloc or "source"`, with `"source"`
on exception (`env.netloc` returns `none` on exception). -/
def host_of (env : Env) (link : String) : String :=
  match env.netloc link with
  | none => "source"
  | some n => if n = "" then "source" else n

/-- `fetch_via_feedparser(url, topk)` on a given attempt: map the first
`topk` parsed entries to NewsItem tuples; an exception yields `[]`. -/
def fetch_via_feedparser (env : Env) (url : String) (topk : Nat) (attempt : Nat) :
    List NewsItem :=
  match env.feed_entries url attempt with
  | none => []
  | some entries =>
    (entries.take topk).map (fun e =>
      let title := get_text (some e.title)
      let link := get_text (some e.link)
      let pub := if get_text (some e.published) = ""
        then get_text (some e.updated) else get_text (some e.published)
      (title, link, pub, host_of env link))

/-- `fetch_via_bs4(url, topk)` on a given attempt: first the `item`
elements capped at `topk`; if that list is empty, the `entry` elements
capped at `topk`; an exception yields `[]`. -/
def fetch_via_bs4 (env : Env) (url : String) (topk : Nat) (attempt : Nat) :
    List NewsItem :=
  match env.soup url attempt with
  | none => []
  | some found =>
    let items := (found.1.take topk).map (fun it =>
      let title := get_text it.title
      let link := get_text it.link
      let pub := get_text it.pubDate
      (title, link, pub, host_of env link))
    if items.isEmpty then
      (found.2.take topk).map (fun en =>
        let title := get_text en.title
        let link := get_text en.href
        let pub := get_text en.updated
        (title, link, pub, host_of env link))
    else items

/-- Configured retry count (`RETRIES = 2`). -/
def RETRIES : Nat := 2

/-- The body of `fetch_rss_items`'s `for i in range(RETRIES+1)` loop over
the remaining attempt indices, also returning the trace of strategy
invocations; falling off the loop returns the sentinel item. -/
def fetchAttempts (env : Env) (url : String) (topk : Nat) :
    List Nat → List NewsItem × List FetchCall
  | [] => ([("【抓取失败】" ++ url, "", "", "error")], [])
  | i :: rest =>
    if (fetch_via_feedparser env url topk i).isEmpty then
      if (fetch_via_bs4 env url topk i).isEmpty then
        ((fetchAttempts env url topk rest).1,
         FetchCall.feedparser i :: FetchCall.bs4 i :: (fetchAttempts env url topk rest).2)
      else (fetch_via_bs4 env url topk i, [FetchCall.feedparser i, FetchCall.bs4 i])
    else (fetch_via_feedparser env url topk i, [FetchCall.feedparser i])

/-- `fetch_rss_items(url, topk)` with its trace of strategy invocations. -/
def fetch_rss_itemsT (env : Env) (url : String) (topk : Nat) :
    List NewsItem × List FetchCall :=
  fetchAttempts env url topk (List.range (RETRIES + 1))

/-- `fetch_rss_items(url, topk)`: the returned item list. -/
def fetch_rss_items (env : Env) (url : String) (topk : Nat) : List NewsItem :=
  (fetch_rss_itemsT env url topk).1

/-- Deduplication key: `(t.strip(), h)`. -/
def dkey (x : NewsItem) : String × String := (strip x.1, x.2.2.2)

/-- The loop of `dedup`, carrying the `seen` key set. -/
def dedupAux (seen : List (String × String)) : List NewsItem → List NewsItem
  | [] => []
  | x :: rest =>
    if dkey x ∈ seen ∨ strip x.1 = "" then dedupAux seen rest
    else x :: dedupAux (dkey x :: seen) rest

/-- `dedup(items)`: drop empty-titled items and repeated
`(trimmed title, sourceHost)` keys, keeping first occurrences in order. -/
def dedup (items : List NewsItem) : List NewsItem := dedupAux [] items

/-- `looks_chinese(s)`: some of the first 8 characters is a CJK codepoint
in `[u4e00, u9fff]`. -/
def looks_chinese (s : String) : Bool :=
  (s.data.take 8).any (fun ch => decide (0x4e00 ≤ ch.toNat ∧ ch.toNat ≤ 0x9fff))

/-- `translate_openai(texts)`: requires a truthy OPENAI_API_KEY; the reply
must be a JSON list of the input's length, each element stringified and
stripped; anything else (exception, parse failure, length mismatch) is
`None`. -/
def translate_openai (env : Env) (texts : List String) : Option (List String) :=
  if pyTruthyStr env.openai_key then
    match env.openai_reply texts with
    | none => none
    | some arr => if arr.length = texts.length then some (arr.map strip) else none
  else none

/-- The per-title loop of `translate_deepl`: an exception on any title
aborts the whole provider (`None`). -/
def deeplLoop (env : Env) : List String → Option (List String)
  | [] => some []
  | t :: ts =>
    match env.deepl_reply t with
    | none => none
    | some out =>
      match deeplLoop env ts with
      | none => none
      | some rest => some (out :: rest)

/-- `translate_deepl(texts)`: requires a truthy DEEPL_API_KEY; per-title
sequential calls; returns the outputs only when their count matches. -/
def translate_deepl (env : Env) (texts : List String) : Option (List String) :=
  if pyTruthyStr env.deepl_key then
    match deeplLoop env texts with
    | none => none
    | some outs => if outs.length = texts.length then some outs else none
  else none

/-- `translate_mymemory(texts)`: per-title calls; a missing field or an
exception substitutes the original title, never aborting. -/
def translate_mymemory (env : Env) (texts : List String) : List String :=
  texts.map (fun t =>
    match env.mymemory_reply t with
    | none => t
    | some out => out)

/-- Python truthiness of a provider result (`if outs:`): `None` and the
empty list are falsy. -/
def pyTruthyList (o : Option (List String)) : Option (List String) :=
  match o with
  | none => none
  | some l => if l.isEmpty then none else some l

/-- `auto_translate(texts)` together with the trace of providers invoked:
empty input short-circuits, an all-Chinese batch is returned unchanged
with no provider call, otherwise OpenAI, then DeepL, then MyMemory. -/
def auto_translateT (env : Env) (texts : List String) :
    List String × List Provider :=
  if texts.isEmpty then ([], [])
  else if texts.all looks_chinese then (texts, [])
  else
    match pyTruthyList (translate_openai env texts) with
    | some outs => (outs, [Provider.openai])
    | none =>
      match pyTruthyList (translate_deepl env texts) with
      | some outs => (outs, [Provider.openai, Provider.deepl])
      | none =>
        (translate_mymemory env texts,
         [Provider.openai, Provider.deepl, Provider.mymemory])

/-- `auto_translate(texts)`: the returned title list. -/
def auto_translate (env : Env) (texts : List String) : List String :=
  (auto_translateT env texts).1

/-- `send_serverchan(title, markdown)` with a count of network calls made:
a falsy SERVERCHAN_SENDKEY raises before any call; otherwise one POST,
raising on an HTTP error status (4xx/5xx), else returning the body. -/
def send_serverchanT (env : Env) (title markdown : String) :
    Except SendError String × Nat :=
  match env.sendkey with
  | none => (Except.error SendError.configError, 0)
  | some key =>
    if key = "" then (Except.error SendError.configError, 0)
    else
      let r := env.post ("https://sctapi.ftqq.com/" ++ key ++ ".send")
        [("title", title), ("desp", markdown)]
      if 400 ≤ r.1 ∧ r.1 < 600 then (Except.error (SendError.deliveryError r.1), 1)
      else (Except.ok r.2, 1)

/-- One character of `html.escape` (quote=True): the five special
characters become entities, everything else is itself. -/
def escapeChar (c : Char) : String :=
  if c = '&' then "&amp;"
  else if c = '<' then "&lt;"
  else if c = '>' then "&gt;"
  else if c = '"' then "&quot;"
  else if c = Char.ofNat 39 then "&#x27;"
  else String.singleton c

/-- `html.escape` over a character list. -/
def escapeList : List Char → String
  | [] => ""
  | c :: cs => escapeChar c ++ escapeList cs

/-- `html.escape(s, quote=True)`. -/
def html_escape (s : String) : String := escapeList s.data

/-- The digest title constant `TITLE`. -/
def TITLE : String := "今日热点简报｜全球 + 国内"

/-- `"\n".join(lines)`. -/
def joinNL : List String → String
  | [] => ""
  | [l] => l
  | l :: ls => l ++ "\n" ++ joinNL ls

/-- One line of the global section: index, escaped translated title,
escaped original title in italics, and a host-labelled link when the
link is non-empty. -/
def renderGlobalLine (i : Nat) (item : NewsItem) (zh : String) : String :=
  if item.2.1 = "" then
    (toString i ++ ". ") ++ html_escape zh ++
      ("  \n    *" ++ html_escape item.1 ++ "*")
  else
    (toString i ++ ". ") ++ html_escape zh ++
      ("  \n    *" ++ html_escape item.1 ++
        ("*  \n    [" ++ item.2.2.2 ++ "](" ++ item.2.1 ++ ")"))

/-- The global-section loop: `enumerate(zip(globals_items, translated), 1)`. -/
def globalLines : Nat → List NewsItem → List String → List String
  | _, [], _ => []
  | _, _ :: _, [] => []
  | i, item :: gs, zh :: zs => renderGlobalLine i item zh :: globalLines (i + 1) gs zs

/-- One line of the domestic section: index, escaped title, and a
host-labelled link when the link is non-empty. -/
def renderChinaLine (i : Nat) (item : NewsItem) : String :=
  if item.2.1 = "" then
    (toString i ++ ". ") ++ html_escape item.1
  else
    (toString i ++ ". ") ++ html_escape item.1 ++
      ("  \n    [" ++ item.2.2.2 ++ "](" ++ item.2.1 ++ ")")

/-- The domestic-section loop: `enumerate(china_items, 1)`. -/
def chinaLines : Nat → List NewsItem → List String
  | _, [] => []
  | i, item :: cs => renderChinaLine i item :: chinaLines (i + 1) cs

/-- `build_markdown(globals_items, china_items, translated)`; the
timestamp string `now` is an input, being read from the clock. -/
def build_markdown (now : String) (globals_items china_items : List NewsItem)
    (translated : List String) : String :=
  joinNL (["**" ++ TITLE ++ "**  \n更新：" ++ now ++ "\n",
           "### 🌍 全球热点（已译）"]
    ++ globalLines 1 globals_items translated
    ++ ["", "### 🇨🇳 国内热点"]
    ++ chinaLines 1 china_items)

/-- The orchestrator's guard after translation: a translated list whose
length differs from the item count is discarded for the original titles. -/
def validate_translated (g_items : List NewsItem) (translated : List String) :
    List String :=
  if translated.length ≠ g_items.length then g_items.map Prod.fst else translated

/-- The translation stage of `main`: translate the global titles, then
re-validate the length defensively. -/
def main_translated (env : Env) (g_items : List NewsItem) : List String :=
  validate_translated g_items (auto_translate env (g_items.map Prod.fst))

/-- An environment with nothing configured and every network call
failing. -/
def defaultEnv : Env where
  openai_key := none
  openai_reply := fun _ => none
  deepl_key := none
  deepl_reply := fun _ => none
  mymemory_reply := fun _ => none
  feed_entries := fun _ _ => none
  soup := fun _ _ => none
  netloc := fun _ => none
  sendkey := none
  post := fun _ _ => (200, "")

/-- An environment whose feed parser always yields one entry. -/
def envFeedOne : Env :=
  { defaultEnv with feed_entries := fun _ _ => some [⟨"t", "l", "p", "u"⟩] }

theorem pyTruthyList_eq_some {o : Option (List String)} {l : List String}
    (h : pyTruthyList o = some l) : o = some l := by
  unfold pyTruthyList at h
  split at h
  · cases h
  · split at h
    · cases h
    · exact h

theorem translate_openai_length (env : Env) (texts l : List String)
    (h : translate_openai env texts = some l) : l.length = texts.length := by
  unfold translate_openai at h
  split at h
  · split at h
    · cases h
    · split at h
      · cases h; simp_all
      · cases h
  · cases h

theorem translate_deepl_length (env : Env) (texts l : List String)
    (h : translate_deepl env texts = some l) : l.length = texts.length := by
  unfold translate_deepl at h
  split at h
  · split at h
    · cases h
    · split at h
      · cases h; simp_all
      · cases h
  · cases h

theorem translate_mymemory_length (env : Env) (texts : List String) :
    (translate_mymemory env texts).length = texts.length := by
  unfold translate_mymemory
  exact List.length_map _ _

/-- C1: `auto_translate` returns a list of the same length as its input
on every provider path — the empty input, the all-Chinese skip path, the
OpenAI batch path, the DeepL per-title path, and the MyMemory terminal
fallback. -/
theorem auto_translate_length_eq (env : Env) (texts : List String) :
    (auto_translate env texts).length = texts.length := by
  unfold auto_translate auto_translateT
  by_cases he : texts.isEmpty
  · rw [if_pos he]
    simp [List.isEmpty_iff.mp he]
  · rw [if_neg he]
    by_cases hc : texts.all looks_chinese
    · rw [if_pos hc]
    · rw [if_neg hc]
      rcases h1 : pyTruthyList (translate_openai env texts) with _ | outs
      · rcases h2 : pyTruthyList (translate_deepl env texts) with _ | outs2
        · simp [translate_mymemory_length]
        · simpa using translate_deepl_length env texts outs2 (pyTruthyList_eq_some h2)
      · simpa using translate_openai_length env texts outs (pyTruthyList_eq_some h1)

/-- C3: a non-empty batch in which every title's first 8 characters
contain a CJK codepoint is returned unchanged, and the provider-call
trace is empty — none of `translate_openai`, `translate_deepl`,
`translate_mymemory` is invoked. -/
theorem auto_translate_skip (env : Env) (texts : List String)
    (hne : texts ≠ []) (hall : ∀ t ∈ texts, looks_chinese t = true) :
    auto_translateT env texts = (texts, []) := by
  unfold auto_translateT
  rw [if_neg (by simpa [List.isEmpty_iff] using hne)]
  rw [if_pos (by simpa [List.all_eq_true] using hall)]

/-- Witness for C3 at a concrete all-Chinese batch. -/
theorem auto_translate_skip_witness :
    auto_translateT defaultEnv ["中文标题"] = (["中文标题"], []) :=
  auto_translate_skip defaultEnv (["中文标题"]) (by decide) (by decide)

theorem dedupAux_sublist (seen : List (String × String)) (xs : List NewsItem) :
    List.Sublist (dedupAux seen xs) xs := by
  induction xs generalizing seen with
  | nil => simp [dedupAux]
  | cons x rest ih =>
    unfold dedupAux
    split
    · exact (ih seen).cons x
    · exact (ih (dkey x :: seen)).cons₂ x

theorem mem_dedupAux (seen : List (String × String)) (xs : List NewsItem)
    (x : NewsItem) (hx : x ∈ dedupAux seen xs) :
    dkey x ∉ seen ∧ strip x.1 ≠ "" ∧
      xs.find? (fun y => decide (dkey y = dkey x)) = some x := by
  induction xs generalizing seen with
  | nil => cases hx
  | cons y rest ih =>
    unfold dedupAux at hx
    split at hx
    · next hcond =>
      obtain ⟨h1, h2, h3⟩ := ih seen hx
      have hne : dkey y ≠ dkey x := by
        rcases hcond with hin | hemp
        · intro he; rw [he] at hin; exact h1 hin
        · intro he
          apply h2
          have : strip y.1 = strip x.1 := congrArg Prod.fst he
          rw [← this, hemp]
      refine ⟨h1, h2, ?_⟩
      rw [List.find?_cons_of_neg _ (by simp [hne]), h3]
    · next hcond =>
      rcases List.mem_cons.mp hx with hxy | hxtail
      · subst hxy
        push_neg at hcond
        refine ⟨hcond.1, hcond.2, ?_⟩
        rw [List.find?_cons_of_pos _ (by simp)]
      · obtain ⟨h1, h2, h3⟩ := ih (dkey y :: seen) hxtail
        have hne : dkey y ≠ dkey x := fun he => h1 (by rw [he]; exact List.mem_cons_self _ _)
        refine ⟨fun hmem => h1 (List.mem_cons_of_mem _ hmem), h2, ?_⟩
        rw [List.find?_cons_of_neg _ (by simp [hne]), h3]

theorem dedupAux_pairwise (seen : List (String × String)) (xs : List NewsItem) :
    (dedupAux seen xs).Pairwise (fun a b => dkey a ≠ dkey b) := by
  induction xs generalizing seen with
  | nil => exact List.Pairwise.nil
  | cons y rest ih =>
    unfold dedupAux
    split
    · exact ih seen
    · refine List.Pairwise.cons ?_ (ih (dkey y :: seen))
      intro b hb
      have := (mem_dedupAux (dkey y :: seen) rest b hb).1
      intro he
      exact this (by rw [← he]; exact List.mem_cons_self _ _)

theorem dedupAux_complete (seen : List (String × String)) (xs : List NewsItem)
    (x : NewsItem) (hx : x ∈ xs) (hne : strip x.1 ≠ "") (hnin : dkey x ∉ seen) :
    ∃ y, y ∈ dedupAux seen xs ∧ dkey y = dkey x := by
  induction xs generalizing seen with
  | nil => cases hx
  | cons y rest ih =>
    unfold dedupAux
    rcases List.mem_cons.mp hx with hxy | hxtail
    · subst hxy
      rw [if_neg (by push_neg; exact ⟨hnin, hne⟩)]
      exact ⟨x, List.mem_cons_self _ _, rfl⟩
    · split
      · next hcond =>
        rcases hcond with hin | hemp
        · exact ih seen hxtail hnin
        · exact ih seen hxtail hnin
      · next hcond =>
        by_cases hk : dkey y = dkey x
        · exact ⟨y, List.mem_cons_self _ _, hk⟩
        · obtain ⟨z, hz, hzk⟩ := ih (dkey y :: seen) hxtail
            (by
              intro hmem
              rcases List.mem_cons.mp hmem with he | hin
              · exact hk he.symm
              · exact hnin hin)
          exact ⟨z, List.mem_cons_of_mem _ hz, hzk⟩

/-- C2: `dedup` returns an order-preserving subsequence of its input,
with pairwise-distinct `(trimmed title, sourceHost)` keys, in which every
item is the first input item carrying its key and no item has an empty
trimmed title; conversely every input item with a non-empty trimmed title
is represented in the output by an item with the same key. -/
theorem dedup_spec (xs : List NewsItem) :
    List.Sublist (dedup xs) xs ∧
    (dedup xs).Pairwise (fun a b => dkey a ≠ dkey b) ∧
    (∀ x, x ∈ dedup xs → strip x.1 ≠ "" ∧
      xs.find? (fun y => decide (dkey y = dkey x)) = some x) ∧
    (∀ x, x ∈ xs → strip x.1 ≠ "" → ∃ y, y ∈ dedup xs ∧ dkey y = dkey x) := by
  refine ⟨dedupAux_sublist [] xs, dedupAux_pairwise [] xs, ?_, ?_⟩
  · intro x hx
    exact (mem_dedupAux [] xs x hx).2
  · intro x hx hne
    exact dedupAux_complete [] xs x hx hne (by simp)

/-- Witness for C2: in a list where the second item repeats the first
item's key after trimming and the third has an empty title, the first
item survives and is found as the first occurrence of its key. -/
theorem dedup_spec_witness :
    strip (("a", "", "", "h") : NewsItem).1 ≠ "" ∧
    ([("a", "", "", "h"), (" a ", "x", "", "h"), ("  ", "", "", "g"),
      ("b", "", "", "h")] : List NewsItem).find?
      (fun y => decide (dkey y = dkey (("a", "", "", "h") : NewsItem)))
      = some ("a", "", "", "h") :=
  (dedup_spec [("a", "", "", "h"), (" a ", "x", "", "h"), ("  ", "", "", "g"),
    ("b", "", "", "h")]).2.2.1 ("a", "", "", "h") (by decide)

theorem dedupAux_eq_self (seen : List (String × String)) (l : List NewsItem)
    (h1 : ∀ x ∈ l, dkey x ∉ seen ∧ strip x.1 ≠ "")
    (h2 : l.Pairwise (fun a b => dkey a ≠ dkey b)) :
    dedupAux seen l = l := by
  induction l generalizing seen with
  | nil => rfl
  | cons x rest ih =>
    have hx := h1 x (List.mem_cons_self _ _)
    unfold dedupAux
    rw [if_neg (by push_neg; exact hx)]
    congr 1
    refine ih (dkey x :: seen) ?_ (List.Pairwise.sublist (List.sublist_cons_self _ _) h2)
    intro y hy
    refine ⟨?_, (h1 y (List.mem_cons_of_mem _ hy)).2⟩
    simp only [List.mem_cons]
    push_neg
    exact ⟨fun he => (List.rel_of_pairwise_cons h2 hy) he.symm,
      (h1 y (List.mem_cons_of_mem _ hy)).1⟩

/-- C4: when both strategies yield zero items on every attempt,
`fetch_rss_items` makes exactly `RETRIES + 1` attempts, each trying the
primary then the secondary strategy, and returns exactly one sentinel
item whose title encodes the source URL and whose host is `"error"`. -/
theorem fetch_rss_items_exhausted (env : Env) (url : String) (topk : Nat)
    (h : ∀ i, i < RETRIES + 1 →
      fetch_via_feedparser env url topk i = [] ∧ fetch_via_bs4 env url topk i = []) :
    fetch_rss_itemsT env url topk =
      ([("【抓取失败】" ++ url, "", "", "error")],
       [FetchCall.feedparser 0, FetchCall.bs4 0, FetchCall.feedparser 1,
        FetchCall.bs4 1, FetchCall.feedparser 2, FetchCall.bs4 2]) := by
  have h0 := h 0 (by decide)
  have h1 := h 1 (by decide)
  have h2 := h 2 (by decide)
  simp [fetch_rss_itemsT, show List.range (RETRIES + 1) = [0, 1, 2] from rfl,
    fetchAttempts, h0.1, h0.2, h1.1, h1.2, h2.1, h2.2]

/-- Witness for C4 with an environment whose network always fails. -/
theorem fetch_rss_items_exhausted_witness :
    fetch_rss_itemsT defaultEnv ("u") 5 =
      ([("【抓取失败】" ++ "u", "", "", "error")],
       [FetchCall.feedparser 0, FetchCall.bs4 0, FetchCall.feedparser 1,
        FetchCall.bs4 1, FetchCall.feedparser 2, FetchCall.bs4 2]) :=
  fetch_rss_items_exhausted defaultEnv ("u") 5 (fun _ _ => ⟨rfl, rfl⟩)

/-- C5: on any attempt reached (all earlier attempts yielded nothing from
both strategies), if the primary strategy yields a non-empty list, the
secondary strategy is not invoked on that attempt and the primary result
is returned. -/
theorem fetch_primary_first (env : Env) (url : String) (topk : Nat) (i : Nat)
    (hi : i < RETRIES + 1)
    (hprev : ∀ j, j < i →
      fetch_via_feedparser env url topk j = [] ∧ fetch_via_bs4 env url topk j = [])
    (hfp : fetch_via_feedparser env url topk i ≠ []) :
    (fetch_rss_itemsT env url topk).1 = fetch_via_feedparser env url topk i ∧
    FetchCall.bs4 i ∉ (fetch_rss_itemsT env url topk).2 := by
  have hi' : i < 3 := hi
  interval_cases i
  · simp [fetch_rss_itemsT, show List.range (RETRIES + 1) = [0, 1, 2] from rfl,
      fetchAttempts, List.isEmpty_iff, hfp]
  · have h0 := hprev 0 (by decide)
    simp [fetch_rss_itemsT, show List.range (RETRIES + 1) = [0, 1, 2] from rfl,
      fetchAttempts, List.isEmpty_iff, hfp, h0.1, h0.2]
  · have h0 := hprev 0 (by decide)
    have h1 := hprev 1 (by decide)
    simp [fetch_rss_itemsT, show List.range (RETRIES + 1) = [0, 1, 2] from rfl,
      fetchAttempts, List.isEmpty_iff, hfp, h0.1, h0.2, h1.1, h1.2]

/-- Witness for C5: a feed that parses on the first attempt. -/
theorem fetch_primary_first_witness :
    (fetch_rss_itemsT envFeedOne ("u") 1).1 = fetch_via_feedparser envFeedOne ("u") 1 0 ∧
    FetchCall.bs4 0 ∉ (fetch_rss_itemsT envFeedOne ("u") 1).2 :=
  fetch_primary_first envFeedOne ("u") 1 0 (by decide)
    (fun j hj => absurd hj (Nat.not_lt_zero j)) (by decide)

theorem fetch_via_feedparser_topk_zero (env : Env) (url : String) (i : Nat) :
    fetch_via_feedparser env url 0 i = [] := by
  unfold fetch_via_feedparser
  cases env.feed_entries url i <;> simp

theorem fetch_via_bs4_topk_zero (env : Env) (url : String) (i : Nat) :
    fetch_via_bs4 env url 0 i = [] := by
  unfold fetch_via_bs4
  cases env.soup url i <;> simp

theorem fetchAttempts_ne_nil (env : Env) (url : String) (topk : Nat)
    (attempts : List Nat) : (fetchAttempts env url topk attempts).1 ≠ [] := by
  induction attempts with
  | nil => simp [fetchAttempts]
  | cons i rest ih =>
    unfold fetchAttempts
    split
    · split
      · simpa using ih
      · next hbs => simpa [List.isEmpty_iff] using hbs
    · next hfp => simpa [List.isEmpty_iff] using hfp

/-- C9: with `topk = 0` both strategies necessarily produce zero items,
so `fetch_rss_items` returns exactly the one sentinel item with host
`"error"`; its output is never the empty list, and at `topk = 0` its
length 1 exceeds the cap 0. -/
theorem fetch_topk_zero (env : Env) (url : String) :
    fetch_rss_items env url 0 = [("【抓取失败】" ++ url, "", "", "error")] ∧
    (∀ topk, fetch_rss_items env url topk ≠ []) ∧
    (fetch_rss_items env url 0).length = 1 := by
  have hmain : fetch_rss_items env url 0 = [("【抓取失败】" ++ url, "", "", "error")] := by
    have he := fetch_rss_items_exhausted env url 0
      (fun i _ => ⟨fetch_via_feedparser_topk_zero env url i, fetch_via_bs4_topk_zero env url i⟩)
    unfold fetch_rss_items
    rw [he]
  refine ⟨hmain, ?_, by rw [hmain]; rfl⟩
  intro topk
  exact fetchAttempts_ne_nil env url topk (List.range (RETRIES + 1))

/-- C6: the orchestrator's translation stage is exactly
`auto_translate` followed by the length guard, and the guard discards
any mismatched-length list for the original titles, so the titles handed
to the renderer always match the global item count. -/
theorem orchestrator_length_guard (env : Env) (g_items : List NewsItem) :
    main_translated env g_items =
      validate_translated g_items (auto_translate env (g_items.map Prod.fst)) ∧
    (∀ translated : List String,
      (translated.length ≠ g_items.length →
        validate_translated g_items translated = g_items.map Prod.fst) ∧
      (validate_translated g_items translated).length = g_items.length) := by
  refine ⟨rfl, ?_⟩
  intro translated
  constructor
  · intro hne
    unfold validate_translated
    rw [if_pos hne]
  · unfold validate_translated
    by_cases hne : translated.length ≠ g_items.length
    · rw [if_pos hne]
      exact List.length_map _ _
    · rw [if_neg hne]
      push_neg at hne
      exact hne

/-- Witness for C6: a two-element translation for a one-item list is
discarded for the original title. -/
theorem orchestrator_length_guard_witness :
    validate_translated [(("t", "", "", "h") : NewsItem)] ["a", "b"] = ["t"] ∧
    (validate_translated [(("t", "", "", "h") : NewsItem)] ["a", "b"]).length = 1 :=
  ⟨((orchestrator_length_guard defaultEnv [("t", "", "", "h")]).2 ["a", "b"]).1 (by decide),
   ((orchestrator_length_guard defaultEnv [("t", "", "", "h")]).2 ["a", "b"]).2⟩

/-- C7: with no SERVERCHAN_SENDKEY the notifier fails with the
configuration error before any network call (zero calls made); with a
key present it makes exactly one call with no retry, returns the
transport's body when the status is not an HTTP error, and raises the
delivery error on an HTTP error status. -/
theorem send_serverchan_spec (env : Env) (title markdown : String) :
    (env.sendkey = none →
      send_serverchanT env title markdown = (Except.error SendError.configError, 0)) ∧
    (∀ key, env.sendkey = some key → key ≠ "" →
      (send_serverchanT env title markdown).2 = 1 ∧
      (∀ status body,
        env.post ("https://sctapi.ftqq.com/" ++ key ++ ".send")
          [("title", title), ("desp", markdown)] = (status, body) →
        ((status < 400 ∨ 600 ≤ status) →
          (send_serverchanT env title markdown).1 = Except.ok body) ∧
        (400 ≤ status → status < 600 →
          (send_serverchanT env title markdown).1 =
            Except.error (SendError.deliveryError status)))) := by
  constructor
  · intro hk
    unfold send_serverchanT
    rw [hk]
  · intro key hk hne
    unfold send_serverchanT
    rw [hk]
    simp only [if_neg hne]
    refine ⟨by split <;> rfl, ?_⟩
    intro status body hpost
    rw [hpost]
    constructor
    · intro hok
      rw [if_neg (by omega)]
    · intro h4 h6
      rw [if_pos ⟨h4, h6⟩]

/-- Witness for C7: the unconfigured environment fails with the config
error and zero network calls. -/
theorem send_serverchan_spec_witness :
    send_serverchanT defaultEnv ("标题") ("正文") = (Except.error SendError.configError, 0) :=
  (send_serverchan_spec defaultEnv ("标题") ("正文")).1 rfl

theorem str_infix_mid (a b c : String) : b.data <:+: (a ++ b ++ c).data := by
  rw [String.data_append, String.data_append]
  exact List.infix_append _ _ _

theorem str_infix_right (a b : String) : b.data <:+: (a ++ b).data := by
  rw [String.data_append]
  exact (List.suffix_append _ _).isInfix

theorem str_infix_left (a b : String) : a.data <:+: (a ++ b).data := by
  rw [String.data_append]
  exact (List.prefix_append _ _).isInfix

theorem escapeChar_no_raw (c : Char) :
    '<' ∉ (escapeChar c).data ∧ '>' ∉ (escapeChar c).data := by
  unfold escapeChar
  split_ifs with h1 h2 h3 h4 h5
  · decide
  · decide
  · decide
  · decide
  · decide
  · refine ⟨fun hm => h2 ?_, fun hm => h3 ?_⟩
    · have : '<' = c := by simpa [String.singleton] using hm
      exact this.symm
    · have : '>' = c := by simpa [String.singleton] using hm
      exact this.symm

theorem escapeList_no_raw (cs : List Char) :
    '<' ∉ (escapeList cs).data ∧ '>' ∉ (escapeList cs).data := by
  induction cs with
  | nil => decide
  | cons c cs ih =>
    unfold escapeList
    rw [String.data_append]
    simp only [List.mem_append, not_or]
    exact ⟨⟨(escapeChar_no_raw c).1, ih.1⟩, ⟨(escapeChar_no_raw c).2, ih.2⟩⟩

theorem escapeChar_mem_infix_escapeList (cs : List Char) (c : Char) (hc : c ∈ cs) :
    (escapeChar c).data <:+: (escapeList cs).data := by
  induction cs with
  | nil => cases hc
  | cons d cs ih =>
    unfold escapeList
    rcases List.mem_cons.mp hc with he | htail
    · subst he
      exact str_infix_left _ _
    · exact (ih htail).trans (str_infix_right _ _)

theorem joinNL_mem_infix (ls : List String) (l : String) (hl : l ∈ ls) :
    l.data <:+: (joinNL ls).data := by
  induction ls with
  | nil => cases hl
  | cons x ls ih =>
    cases ls with
    | nil =>
      rcases List.mem_cons.mp hl with he | htail
      · subst he
        exact List.infix_refl _
      · cases htail
    | cons y ls' =>
      rcases List.mem_cons.mp hl with he | htail
      · subst he
        show l.data <:+: (l ++ "\n" ++ joinNL (y :: ls')).data
        exact (str_infix_left l "\n").trans (str_infix_left _ _)
      · show l.data <:+: (x ++ "\n" ++ joinNL (y :: ls')).data
        exact (ih htail).trans (str_infix_right _ _)

theorem escape_infix_globalLine (i : Nat) (item : NewsItem) (zh : String) :
    (html_escape item.1).data <:+: (renderGlobalLine i item zh).data ∧
    (html_escape zh).data <:+: (renderGlobalLine i item zh).data := by
  unfold renderGlobalLine
  split_ifs with h
  · exact ⟨(str_infix_mid ("  \n    *") (html_escape item.1) ("*")).trans
      (str_infix_right _ _), str_infix_mid _ _ _⟩
  · exact ⟨(str_infix_mid ("  \n    *") (html_escape item.1) _).trans
      (str_infix_right _ _), str_infix_mid _ _ _⟩

theorem escape_infix_chinaLine (i : Nat) (item : NewsItem) :
    (html_escape item.1).data <:+: (renderChinaLine i item).data := by
  unfold renderChinaLine
  split_ifs with h
  · exact str_infix_right _ _
  · exact str_infix_mid _ _ _

theorem mem_globalLines (gs : List NewsItem) (ts : List String) (item : NewsItem)
    (zh : String) (h : (item, zh) ∈ List.zip gs ts) :
    ∀ i, ∃ j, renderGlobalLine j item zh ∈ globalLines i gs ts := by
  induction gs generalizing ts with
  | nil => simp [List.zip] at h
  | cons g gs ih =>
    cases ts with
    | nil => simp at h
    | cons z zs =>
      intro i
      rw [List.zip_cons_cons] at h
      rcases List.mem_cons.mp h with he | htail
      · obtain ⟨rfl, rfl⟩ := Prod.mk.inj he
        exact ⟨i, by unfold globalLines; exact List.mem_cons_self _ _⟩
      · obtain ⟨j, hj⟩ := ih zs htail (i + 1)
        exact ⟨j, by unfold globalLines; exact List.mem_cons_of_mem _ hj⟩

theorem mem_chinaLines (cs : List NewsItem) (item : NewsItem) (h : item ∈ cs) :
    ∀ i, ∃ j, renderChinaLine j item ∈ chinaLines i cs := by
  induction cs with
  | nil => cases h
  | cons c cs ih =>
    intro i
    rcases List.mem_cons.mp h with he | htail
    · subst he
      exact ⟨i, by unfold chinaLines; exact List.mem_cons_self _ _⟩
    · obtain ⟨j, hj⟩ := ih htail (i + 1)
      exact ⟨j, by unfold chinaLines; exact List.mem_cons_of_mem _ hj⟩

/-- C8: every global item's escaped original title and escaped translated
title, and every domestic item's escaped title, appear verbatim in the
rendered Markdown; escaped text never contains a raw `<` or `>` (so raw
markup like a script tag cannot occur in a title position), and the
escaped form of every character of a title appears within its escaped
text. -/
theorem build_markdown_escapes (now : String) (gs cs : List NewsItem)
    (ts : List String) :
    (∀ item zh, (item, zh) ∈ List.zip gs ts →
      (html_escape item.1).data <:+: (build_markdown now gs cs ts).data ∧
      (html_escape zh).data <:+: (build_markdown now gs cs ts).data) ∧
    (∀ item, item ∈ cs →
      (html_escape item.1).data <:+: (build_markdown now gs cs ts).data) ∧
    (∀ s : String, '<' ∉ (html_escape s).data ∧ '>' ∉ (html_escape s).data) ∧
    (∀ s : String, ∀ c, c ∈ s.data →
      (escapeChar c).data <:+: (html_escape s).data) := by
  refine ⟨?_, ?_, fun s => escapeList_no_raw s.data,
    fun s c hc => escapeChar_mem_infix_escapeList s.data c hc⟩
  · intro item zh hmem
    obtain ⟨j, hj⟩ := mem_globalLines gs ts item zh hmem 1
    have hline : (renderGlobalLine j item zh).data <:+:
        (build_markdown now gs cs ts).data := by
      unfold build_markdown
      apply joinNL_mem_infix
      exact List.mem_append.mpr (Or.inl (List.mem_append.mpr (Or.inl
        (List.mem_append.mpr (Or.inr hj)))))
    exact ⟨(escape_infix_globalLine j item zh).1.trans hline,
           (escape_infix_globalLine j item zh).2.trans hline⟩
  · intro item hmem
    obtain ⟨j, hj⟩ := mem_chinaLines cs item hmem 1
    have hline : (renderChinaLine j item).data <:+:
        (build_markdown now gs cs ts).data := by
      unfold build_markdown
      apply joinNL_mem_infix
      exact List.mem_append.mpr (Or.inr hj)
    exact (escape_infix_chinaLine j item).trans hline

/-- Witness for C8 at a title carrying raw markup. -/
theorem build_markdown_escapes_witness :
    (html_escape ("<script>&a")).data <:+:
      (build_markdown ("now") [(("<script>&a", "l", "", "h") : NewsItem)] [] ["安全"]).data :=
  ((build_markdown_escapes ("now") [("<script>&a", "l", "", "h")] [] ["安全"]).1
    ("<script>&a", "l", "", "h") ("安全") (by decide)).1

/-- C10: `dedup` is idempotent. -/
theorem dedup_idem (xs : List NewsItem) : dedup (dedup xs) = dedup xs :=
  dedupAux_eq_self [] (dedup xs)
    (fun x hx => ⟨by simp, (mem_dedupAux [] xs x hx).2.1⟩)
    (dedupAux_pairwise [] xs)

end NewsPush
